import Mathlib

/-!
Verification development for the idex exchange-connector core
(hummingbot/connector/exchange/idex).  The Python source is shallowly
embedded: `Decimal` values become `ℚ` (the code only adds, multiplies and
compares, which exact decimal arithmetic performs exactly), dict-based
wire messages become structures carrying both the short (web-socket) and
long (REST) spellings of each field as `Option`s, fallible code returns
`Option`/`Except`, and the in-flight-order store becomes an association
list from client order id to order record.
-/

namespace IdexSpec

/-- Order types used by the connector (hummingbot `OrderType`). -/
inductive OrderType where
  | MARKET
  | LIMIT
  | LIMIT_MAKER
deriving DecidableEq, Repr

/-- Trade side (hummingbot `TradeType`). -/
inductive TradeType where
  | BUY
  | SELL
deriving DecidableEq, Repr

/-- `IdexInFlightOrder` (idex_in_flight_order.py).  Fields of the base
class `InFlightOrderBase` plus `fill_id_set` and `cancelled_event`
(lines 40-41); the asyncio event is modelled by the boolean
`cancelled_event_set`. -/
structure IdexInFlightOrder where
  client_order_id : String
  exchange_order_id : String
  trading_pair : String
  order_type : OrderType
  trade_type : TradeType
  price : ℚ
  amount : ℚ
  last_state : String
  executed_amount_base : ℚ
  executed_amount_quote : ℚ
  fee_asset : Option String
  fee_paid : ℚ
  fill_id_set : Finset (Option String)
  cancelled_event_set : Bool
deriving DecidableEq

/-- `IdexInFlightOrder.__init__` (idex_in_flight_order.py lines 11-41).
The `super().__init__` part is modelled from the spec: `InFlightOrderBase`
is not under src/; per the spec's Order record a fresh record starts with
zero executed totals, zero fee paid and no fee asset.  `fill_id_set`
starts empty and `cancelled_event` unset (src lines 40-41). -/
def IdexInFlightOrder.new (client_order_id exchange_order_id trading_pair : String)
    (order_type : OrderType) (trade_type : TradeType)
    (price amount : ℚ) (initial_state : String := "open") : IdexInFlightOrder :=
  { client_order_id := client_order_id
    exchange_order_id := exchange_order_id
    trading_pair := trading_pair
    order_type := order_type
    trade_type := trade_type
    price := price
    amount := amount
    last_state := initial_state
    executed_amount_base := 0
    executed_amount_quote := 0
    fee_asset := none
    fee_paid := 0
    fill_id_set := ∅
    cancelled_event_set := false }

/-- `IdexInFlightOrder.is_done` (lines 43-45). -/
def IdexInFlightOrder.is_done (o : IdexInFlightOrder) : Bool :=
  o.last_state == "filled" || o.last_state == "canceled" || o.last_state == "rejected"

/-- `IdexInFlightOrder.is_failure` (lines 47-49). -/
def IdexInFlightOrder.is_failure (o : IdexInFlightOrder) : Bool :=
  o.last_state == "rejected"

/-- `IdexInFlightOrder.is_cancelled` (lines 51-53). -/
def IdexInFlightOrder.is_cancelled (o : IdexInFlightOrder) : Bool :=
  o.last_state == "canceled" || o.last_state == "cancelled"

/-- The dict-access idiom `msg["x"] if "x" in msg else msg.get("y")` used
throughout the connector to accept both the web-socket (short) and REST
(long) spelling of a field.  `none` models an absent key (Python `None`). -/
def pick {α : Type} (short long : Option α) : Option α :=
  match short with
  | some v => some v
  | none => long

/-- Python truthiness of `self.fee_asset` (a possibly-`None` string):
`None` and the empty string are falsy. -/
def strFalsy (s : Option String) : Bool :=
  match s with
  | none => true
  | some v => v.isEmpty

/-- One fill entry of an order message, with both wire spellings of each
field (web-socket: `i`, `q`, `p`, `f`, `a`; REST: `fillId`, `quantity`,
`price`, `fee`, `feeAsset`).  Numeric strings are modelled as `ℚ`. -/
structure FillUpdate where
  i : Option String
  fillId : Option String
  q : Option ℚ
  quantity : Option ℚ
  p : Option ℚ
  price : Option ℚ
  f : Option ℚ
  fee : Option ℚ
  a : Option String
  feeAsset : Option String
deriving DecidableEq

/-- `IdexInFlightOrder.update_with_fill_update` (lines 78-97).  Returns
`some (updated?, new order)`; `none` models the `Decimal` exception raised
when a required numeric field is absent from a fresh (non-duplicate) fill
(only reachable on malformed messages, where the Python code would abort
mid-message). -/
def update_with_fill_update (o : IdexInFlightOrder) (u : FillUpdate) :
    Option (Bool × IdexInFlightOrder) :=
  let fill_id := pick u.i u.fillId
  if fill_id ∈ o.fill_id_set then
    some (false, o)
  else
    match pick u.q u.quantity, pick u.f u.fee, pick u.p u.price with
    | some qty, some fee, some price =>
      some (true,
        { o with
          fill_id_set := insert fill_id o.fill_id_set
          executed_amount_base := o.executed_amount_base + qty
          fee_paid := o.fee_paid + fee
          executed_amount_quote := o.executed_amount_quote + price * qty
          fee_asset := if strFalsy o.fee_asset then pick u.a u.feeAsset else o.fee_asset })
    | _, _, _ => none

/-! ## Exchange state and lifecycle events (idex_exchange.py) -/

/-- Lifecycle events triggered by the connector (`trigger_event` calls). -/
inductive MarketEv where
  | OrderFilled (client_order_id trading_pair : String) (trade_type : TradeType)
      (order_type : OrderType) (price quantity : ℚ) (fee_asset : Option String)
      (fee : ℚ) (exchange_trade_id : Option String)
  | BuyOrderCompleted (client_order_id : String) (fee_asset : Option String)
      (executed_amount_base executed_amount_quote fee_paid : ℚ)
      (order_type : OrderType) (exchange_order_id : String)
  | SellOrderCompleted (client_order_id : String) (fee_asset : Option String)
      (executed_amount_base executed_amount_quote fee_paid : ℚ)
      (order_type : OrderType) (exchange_order_id : String)
  | OrderCancelled (client_order_id exchange_order_id : String)
  | OrderFailure (client_order_id : String) (order_type : OrderType)
deriving DecidableEq

/-- The `_in_flight_orders` dict of `IdexExchange`, as an association
list from client order id to order record. -/
structure ExchangeState where
  in_flight_orders : List (String × IdexInFlightOrder)
deriving DecidableEq

/-- `self._in_flight_orders.get(client_order_id)`; a `none` key models a
message without a client order id (Python `dict.get(None)` finds nothing
because ids are strings). -/
def getOrder (st : ExchangeState) (cid : Option String) : Option IdexInFlightOrder :=
  match cid with
  | none => none
  | some c => (st.in_flight_orders.find? (fun p => p.1 == c)).map (fun p => p.2)

/-- In-place mutation of the tracked order object: the map keeps the same
key, holding the updated record. -/
def setOrder (st : ExchangeState) (cid : String) (o : IdexInFlightOrder) : ExchangeState :=
  { in_flight_orders := st.in_flight_orders.map (fun p => if p.1 == cid then (cid, o) else p) }

/-- `IdexExchange.stop_tracking_order` (lines 769-775): delete the entry
if present, no-op otherwise. -/
def removeOrder (st : ExchangeState) (cid : String) : ExchangeState :=
  { in_flight_orders := st.in_flight_orders.filter (fun p => p.1 != cid) }

/-- An order/fill message from REST (`clientOrderId`, `fills`, `orderId`)
or the web socket (`c`, `F`, `i`); only the fields `_process_fill_message`
reads. -/
structure UpdateMsg where
  c : Option String
  clientOrderId : Option String
  F : Option (List FillUpdate)
  fills : Option (List FillUpdate)
  i : Option String
  orderId : Option String

/-- `update_msg["c"] if "c" in update_msg else update_msg.get("clientOrderId")`
(idex_exchange.py line 893). -/
def msgClientId (msg : UpdateMsg) : Option String :=
  pick msg.c msg.clientOrderId

/-- `update_msg.get("F") or update_msg.get("fills") is not None`
(line 897): a present `F` must be non-empty (truthiness) while a present
`fills` suffices. -/
def msgHasFills (msg : UpdateMsg) : Bool :=
  (match msg.F with
   | some l => !l.isEmpty
   | none => false) || msg.fills.isSome

/-- `update_msg["F"] if "F" in update_msg else update_msg.get("fills")`
(line 898), the list actually iterated. -/
def msgFills (msg : UpdateMsg) : List FillUpdate :=
  match msg.F with
  | some l => l
  | none => msg.fills.getD []

/-- `update_msg["i"] if "i" in update_msg else update_msg.get("orderId")`
(line 916), passed as `exchange_trade_id` of each `OrderFilledEvent`. -/
def msgTradeId (msg : UpdateMsg) : Option String :=
  pick msg.i msg.orderId

/-- `NORMALIZED_PRECISION = 1e-08` (idex_exchange.py line 43). -/
def NORMALIZED_PRECISION : ℚ := 1 / 100000000

/-- `math.isclose(a, b, rel_tol=NORMALIZED_PRECISION)` with the default
`abs_tol=0`: `abs(a-b) <= rel_tol * max(abs(a), abs(b))`, over exact
rationals. -/
def isclose (a b : ℚ) : Bool :=
  decide (|a - b| ≤ NORMALIZED_PRECISION * max |a| |b|)

/-- The completion test of `_process_fill_message` (lines 919-920):
`math.isclose(executed, amount, rel_tol=NORMALIZED_PRECISION) or
executed >= amount`. -/
def fill_complete (o : IdexInFlightOrder) : Bool :=
  isclose o.executed_amount_base o.amount || decide (o.executed_amount_base ≥ o.amount)

/-- The buy/sell completed event built at lines 925-939 from the tracked
order after `last_state` was set to `"filled"`. -/
def completedEvent (o : IdexInFlightOrder) : MarketEv :=
  match o.trade_type with
  | TradeType.BUY =>
    MarketEv.BuyOrderCompleted o.client_order_id o.fee_asset o.executed_amount_base
      o.executed_amount_quote o.fee_paid o.order_type o.exchange_order_id
  | TradeType.SELL =>
    MarketEv.SellOrderCompleted o.client_order_id o.fee_asset o.executed_amount_base
      o.executed_amount_quote o.fee_paid o.order_type o.exchange_order_id

/-- The `for fill_msg in ...` loop of `_process_fill_message`
(lines 898-918).  Returns the updated order, the `OrderFilled` events
emitted, and whether the loop exited early: on a duplicate fill
(`updated` false) the code executes `return`, leaving the rest of the
message unprocessed (third component `true`).  `none` models a raised
exception on a malformed fresh fill. -/
def applyFills (etid : Option String) :
    IdexInFlightOrder → List FillUpdate → Option (IdexInFlightOrder × List MarketEv × Bool)
  | o, [] => some (o, [], false)
  | o, u :: rest =>
    match update_with_fill_update o u with
    | none => none
    | some (false, o') => some (o', [], true)
    | some (true, o') =>
      match pick u.p u.price, pick u.q u.quantity, pick u.f u.fee with
      | some price, some qty, some fee =>
        match applyFills etid o' rest with
        | none => none
        | some (o2, evs, early) =>
          some (o2,
            MarketEv.OrderFilled o'.client_order_id o'.trading_pair o'.trade_type
              o'.order_type price qty (pick u.a u.feeAsset) fee etid :: evs,
            early)
      | _, _, _ => none

/-- The fill loop as run by `_process_fill_message`: skipped entirely when
the message carries no fills (the truthiness test at line 897). -/
def runFillLoop (msg : UpdateMsg) (o : IdexInFlightOrder) :
    Option (IdexInFlightOrder × List MarketEv × Bool) :=
  if msgHasFills msg then applyFills (msgTradeId msg) o (msgFills msg)
  else some (o, [], false)

/-- `IdexExchange._process_fill_message` (lines 887-940).  Returns the new
store, the events triggered, and the final state of the tracked order
object (`none` when no order was tracked for the message); the outer
`none` models a raised exception.  On a duplicate fill the code returns
from the whole coroutine, so the completion check of lines 919-940 only
runs when the loop finished without hitting a duplicate. -/
def process_fill_message (st : ExchangeState) (msg : UpdateMsg) :
    Option (ExchangeState × List MarketEv × Option IdexInFlightOrder) :=
  match msgClientId msg with
  | none => some (st, [], none)
  | some cid =>
    match getOrder st (some cid) with
    | none => some (st, [], none)
    | some o =>
      match runFillLoop msg o with
      | none => none
      | some (o1, evs, early) =>
        let st1 := setOrder st cid o1
        if early then
          some (st1, evs, some o1)
        else if fill_complete o1 then
          let o2 := { o1 with last_state := "filled" }
          some (removeOrder (setOrder st cid o2) cid, evs ++ [completedEvent o2], some o2)
        else
          some (st1, evs, some o1)

/-! ## Cancellation (idex_exchange.py `_execute_cancel`, `cancel_all`) -/

/-- Outcome of the venue call `delete_order` (lines 569-603): `resp items`
is the decoded JSON response, one `orderId` (possibly absent, for a falsy
element) per entry; `ioerror` is the `IOError` raised on a non-200 status,
with the flag recording whether its message contains the (lowercased)
substring "order not found". -/
inductive DeleteOutcome where
  | resp (items : List (Option String))
  | ioerror (msgHasOrderNotFound : Bool)
deriving DecidableEq

/-- How `_execute_cancel` terminates: `success cid` is a normal return of
the client order id; `ioerror` is a propagated `IOError` (flag as in
`DeleteOutcome`). -/
inductive CancelOutcome where
  | success (client_order_id : String)
  | ioerror (msgHasOrderNotFound : Bool)
deriving DecidableEq

/-- `IdexExchange._execute_cancel` (lines 403-463), with the venue call
outcome passed as a parameter.  Every `raise IOError` inside the `try` is
caught at line 437; the handler treats any message containing "order not
found" for a tracked order as a semantically successful no-op cancel
(stop tracking + `OrderCancelled` + return), and re-raises otherwise.
Result: final store, events, outcome, and the `cancelled_event` flag of
the tracked order object (`none` when the id was never tracked); the flag
is only `.set()` on an exact exchange-id match (line 432). -/
def execute_cancel (st : ExchangeState) (trading_pair client_order_id : String)
    (out : DeleteOutcome) : ExchangeState × List MarketEv × CancelOutcome × Option Bool :=
  let _ := trading_pair
  match getOrder st (some client_order_id) with
  | none =>
    -- "Failed to cancel order - ...: order not found." raised, then
    -- re-raised because tracked_order is None
    (st, [], CancelOutcome.ioerror true, none)
  | some o =>
    match out with
    | DeleteOutcome.ioerror nf =>
      if nf then
        (removeOrder st client_order_id,
         [MarketEv.OrderCancelled client_order_id o.exchange_order_id],
         CancelOutcome.success client_order_id, some o.cancelled_event_set)
      else
        (st, [], CancelOutcome.ioerror false, some o.cancelled_event_set)
    | DeleteOutcome.resp items =>
      match items with
      | [] =>
        -- "call to delete_order ... returned empty: order not found"
        (removeOrder st client_order_id,
         [MarketEv.OrderCancelled client_order_id o.exchange_order_id],
         CancelOutcome.success client_order_id, some o.cancelled_event_set)
      | first :: _ =>
        if first == some o.exchange_order_id then
          (removeOrder st client_order_id,
           [MarketEv.OrderCancelled client_order_id o.exchange_order_id],
           CancelOutcome.success client_order_id, some true)
        else
          -- "... returned a different order id ...: order not found"
          (removeOrder st client_order_id,
           [MarketEv.OrderCancelled client_order_id o.exchange_order_id],
           CancelOutcome.success client_order_id, some o.cancelled_event_set)

/-- The result-processing loop of `cancel_all` (lines 958-989), fuelled by
`cutoff`: the number of result pairs processed before the deadline
exception interrupts (in the code this is all of them when `safe_gather`
beats the timeout, and zero when it does not; intermediate values cover a
hypothetical mid-loop interruption).  An `Exception` result is logged and
skipped, leaving the order tracked; any response counts as a successful
cancellation: the id leaves `order_id_set`, the order is untracked and
`OrderCancelled` fires. -/
def cancelAllLoop :
    ExchangeState → List ((String × IdexInFlightOrder) × DeleteOutcome) → ℕ →
    ExchangeState × List MarketEv × List String
  | st, _, 0 => (st, [], [])
  | st, [], _ + 1 => (st, [], [])
  | st, ((cid, o), out) :: rest, k + 1 =>
    match out with
    | DeleteOutcome.ioerror _ => cancelAllLoop st rest k
    | DeleteOutcome.resp _ =>
      let r := cancelAllLoop (removeOrder st cid) rest k
      (r.1, MarketEv.OrderCancelled cid o.exchange_order_id :: r.2.1, cid :: r.2.2)

/-- `IdexExchange.cancel_all` (lines 942-999): snapshot the non-terminal
orders, run the cancels (outcomes supplied positionally, zip truncating
like Python `zip`), then report every id not processed successfully as a
failed `CancellationResult`. -/
def cancel_all (st : ExchangeState) (outcomes : List DeleteOutcome) (cutoff : ℕ) :
    ExchangeState × List MarketEv × List (String × Bool) :=
  let incomplete := st.in_flight_orders.filter (fun p => !p.2.is_done)
  let r := cancelAllLoop st (incomplete.zip outcomes) cutoff
  let successIds := r.2.2
  let failedIds := (incomplete.map (fun p => p.1)).filter (fun c => !(successIds.contains c))
  (r.1, r.2.1, successIds.map (fun c => (c, true)) ++ failedIds.map (fun c => (c, false)))

/-! ## Serialization (idex_in_flight_order.py `from_json`, snapshots) -/

/-- The serialized snapshot of one order record, as consumed by
`IdexInFlightOrder.from_json` (lines 55-76).  `order_type`/`trade_type`
travel as enum names, inverted by `getattr`; they are kept as enums here.
Per the spec the snapshot covers all Order-record attributes, including
the applied-fill-id set. -/
structure OrderJson where
  client_order_id : String
  exchange_order_id : String
  trading_pair : String
  order_type : OrderType
  trade_type : TradeType
  price : ℚ
  amount : ℚ
  last_state : String
  executed_amount_base : ℚ
  executed_amount_quote : ℚ
  fee_asset : Option String
  fee_paid : ℚ
  fill_ids : Finset (Option String)
deriving DecidableEq

/-- `IdexInFlightOrder.from_json` (lines 55-76): construct a fresh record
via `__init__`, then copy the executed totals, fee fields and
`last_state` from the data.  No key of the data is ever copied into
`fill_id_set`, which therefore stays empty. -/
def from_json (data : OrderJson) : IdexInFlightOrder :=
  let result := IdexInFlightOrder.new data.client_order_id data.exchange_order_id
    data.trading_pair data.order_type data.trade_type data.price data.amount data.last_state
  { result with
    executed_amount_base := data.executed_amount_base
    executed_amount_quote := data.executed_amount_quote
    fee_asset := data.fee_asset
    fee_paid := data.fee_paid
    last_state := data.last_state }

/-- Modelled from the spec: `InFlightOrderBase.to_json` is not under src/.
Per the spec's saved-state snapshot format it serializes the order
record's attributes (identity, economics, state, applied-fill ids) for
non-terminal orders; `restore_tracking_states` feeds its output back to
`from_json`. -/
def to_json (o : IdexInFlightOrder) : OrderJson :=
  { client_order_id := o.client_order_id
    exchange_order_id := o.exchange_order_id
    trading_pair := o.trading_pair
    order_type := o.order_type
    trade_type := o.trade_type
    price := o.price
    amount := o.amount
    last_state := o.last_state
    executed_amount_base := o.executed_amount_base
    executed_amount_quote := o.executed_amount_quote
    fee_asset := o.fee_asset
    fee_paid := o.fee_paid
    fill_ids := o.fill_id_set }

/-- `IdexExchange.restore_tracking_states` (lines 169-178):
`self._in_flight_orders.update({key: from_json(value) ...})`. -/
def restore_tracking_states (st : ExchangeState) (saved : List (String × OrderJson)) :
    ExchangeState :=
  saved.foldl
    (fun acc kv =>
      if (acc.in_flight_orders.find? (fun p => p.1 == kv.1)).isSome then
        setOrder acc kv.1 (from_json kv.2)
      else
        { in_flight_orders := acc.in_flight_orders ++ [(kv.1, from_json kv.2)] })
    st

/-! ## Wallet signing (idex_auth.py) -/

/-- Python exception classes raised (or allegedly raised) around wallet
signing.  `signingError` models the `SigningError` class named by the
spec's error taxonomy; no such class exists anywhere in src/, the
constructor exists only so that statements can compare against it. -/
inductive PyErr where
  | attributeError (msg : String)
  | typeError (msg : String)
  | valueError (msg : String)
  | signingError (msg : String)
deriving DecidableEq

/-- `eth_account.Account.from_key` result (`LocalAccount`), abstracted:
key-derived data; the actual elliptic-curve derivation is outside the
embedding. -/
structure LocalAccount where
  key : String
deriving DecidableEq

/-- `Account.from_key(private_key)` as an abstract constructor. -/
def Account.from_key (private_key : String) : LocalAccount :=
  { key := private_key }

/-- Typed values of a solidity signature-parameter tuple (the `(type-tag,
value)` pairs of `build_signature_params_for_order` and
`build_signature_params_for_cancel_order`). -/
inductive SigValue where
  | u8 (n : ℕ)
  | u64 (n : ℕ)
  | u128 (n : ℕ)
  | str (s : String)
  | addr (s : String)
  | boolean (b : Bool)
deriving DecidableEq

/-- A produced wallet signature, abstracted as the signing account
together with the exact ordered parameter tuple (a stand-in for the ECDSA
signature over the solidityKeccak hash, injective in both, which is all
the development relies on). -/
structure WalletSignature where
  signer : LocalAccount
  params : List (String × SigValue)
deriving DecidableEq

/-- `IdexAuth.__init__` state (idex_auth.py lines 70-79): credential
strings (`key or ''` defaulting) and the optional `LocalAccount`. -/
structure IdexAuth where
  api_key : String
  secret_key : String
  wallet_private_key : String
  wallet : Option LocalAccount
deriving DecidableEq

/-- `IdexAuth.init_wallet` (lines 110-114).  Note the code passes the
`private_key` argument - not the stored key - to `Account.from_key`, so a
call with a falsy argument while a key is stored raises (modelled by
`Except.error`). -/
def IdexAuth.init_wallet (a : IdexAuth) (private_key : Option String) :
    Except PyErr IdexAuth :=
  let a' :=
    match private_key with
    | some k => if k.isEmpty then a else { a with wallet_private_key := k }
    | none => a
  if a'.wallet_private_key.isEmpty then
    Except.ok a'
  else
    match private_key with
    | some k =>
      if k.isEmpty then Except.error (PyErr.valueError "from_key on empty key")
      else Except.ok { a' with wallet := some (Account.from_key k) }
    | none => Except.error (PyErr.typeError "from_key on None")

/-- `IdexAuth.__init__` (lines 70-79): store `key or ''` for each
credential, start with no wallet, then `init_wallet(wallet_private_key)`. -/
def IdexAuth.new (api_key secret_key : String) (wallet_private_key : Option String) :
    Except PyErr IdexAuth :=
  IdexAuth.init_wallet
    { api_key := api_key
      secret_key := secret_key
      wallet_private_key := (wallet_private_key.getD "")
      wallet := none }
    wallet_private_key

/-- The message of the `AttributeError` hit at line 132 when
`self._wallet` is `None`. -/
def noneTypeSignMsg : String := "NoneType object has no attribute sign_message"

/-- `IdexAuth.wallet_sign` (lines 116-134): hash the ordered parameter
tuple and sign it with `self._wallet`.  With no wallet configured the
attribute access `self._wallet.sign_message` raises `AttributeError`. -/
def wallet_sign (a : IdexAuth) (signature_parameters : List (String × SigValue)) :
    Except PyErr WalletSignature :=
  match a.wallet with
  | none => Except.error (PyErr.attributeError noneTypeSignMsg)
  | some w => Except.ok { signer := w, params := signature_parameters }

/-- Whether an outcome of `wallet_sign` is a raised `SigningError`. -/
def isSigningError (r : Except PyErr WalletSignature) : Bool :=
  match r with
  | Except.error (PyErr.signingError _) => true
  | _ => false

/-! ## Nonces (idex_auth.py `generate_nonce` / `get_nonce_int`) -/

/-- The integer form of a version-1 UUID as produced by Python
`uuid.uuid1` and read back by `IdexAuth.get_nonce_int` (line 102-104):
RFC 4122 field layout `time_low(32) | time_mid(16) | time_hi_version(16) |
clock_seq_hi_variant(8) | clock_seq_low(8) | node(48)`, most significant
first, with the 60-bit 100ns timestamp split low-first across the three
time fields.  Or-ing the version nibble (1) and the variant bits (10) into
disjoint bit ranges is written as addition. -/
def uuid1_int (timestamp clock_seq node : ℕ) : ℕ :=
  let time_low := timestamp % 2 ^ 32
  let time_mid := timestamp / 2 ^ 32 % 2 ^ 16
  let time_hi_version := timestamp / 2 ^ 48 % 2 ^ 12 + 2 ^ 12
  let clock_seq_hi_variant := clock_seq / 2 ^ 8 % 2 ^ 6 + 2 ^ 7
  let clock_seq_low := clock_seq % 2 ^ 8
  time_low * 2 ^ 96 + time_mid * 2 ^ 80 + time_hi_version * 2 ^ 64 +
    clock_seq_hi_variant * 2 ^ 56 + clock_seq_low * 2 ^ 48 + node % 2 ^ 48

/-! ## Rate-limit pools (idex_resolve.py) -/

/-- `hummingbot.core.api_throttler.data_types.RateLimit`, restricted to
the fields idex_resolve.py sets. -/
structure RateLimit where
  limit_id : String
  limit : ℕ
  time_interval : ℕ
deriving DecidableEq

/-- `HTTP_PUBLIC_ENDPOINTS_LIMIT_ID` (idex_resolve.py line 85). -/
def HTTP_PUBLIC_ENDPOINTS_LIMIT_ID : String := "PublicAccessHTTP"

/-- `HTTP_USER_ENDPOINTS_LIMIT_ID` (idex_resolve.py line 86). -/
def HTTP_USER_ENDPOINTS_LIMIT_ID : String := "UserAccessHTTP"

/-- `RATE_LIMITS` (idex_resolve.py lines 89-95). -/
def RATE_LIMITS : List RateLimit :=
  [ { limit_id := HTTP_PUBLIC_ENDPOINTS_LIMIT_ID, limit := 5, time_interval := 1 },
    { limit_id := HTTP_USER_ENDPOINTS_LIMIT_ID, limit := 10, time_interval := 1 } ]

/-- Look a pool up by its id, as the throttler does. -/
def findRateLimit (limit_id : String) : Option RateLimit :=
  RATE_LIMITS.find? (fun r => r.limit_id == limit_id)

/-! ## Helper lemmas -/

theorem update_with_fill_update_dup (o : IdexInFlightOrder) (u : FillUpdate)
    (h : pick u.i u.fillId ∈ o.fill_id_set) :
    update_with_fill_update o u = some (false, o) := by
  simp [update_with_fill_update, h]

theorem update_with_fill_update_true_elim (o o' : IdexInFlightOrder) (u : FillUpdate)
    (h : update_with_fill_update o u = some (true, o')) :
    pick u.i u.fillId ∉ o.fill_id_set ∧
    ∃ qty fee price, pick u.q u.quantity = some qty ∧ pick u.f u.fee = some fee ∧
      pick u.p u.price = some price ∧
      o' = { o with
        fill_id_set := insert (pick u.i u.fillId) o.fill_id_set
        executed_amount_base := o.executed_amount_base + qty
        fee_paid := o.fee_paid + fee
        executed_amount_quote := o.executed_amount_quote + price * qty
        fee_asset := if strFalsy o.fee_asset then pick u.a u.feeAsset else o.fee_asset } := by
  by_cases hmem : pick u.i u.fillId ∈ o.fill_id_set
  · rw [update_with_fill_update_dup o u hmem] at h
    simp at h
  · refine ⟨hmem, ?_⟩
    rcases hq : pick u.q u.quantity with _ | qty <;>
      rcases hf : pick u.f u.fee with _ | fee <;>
        rcases hp : pick u.p u.price with _ | price <;>
          simp [update_with_fill_update, hmem, hq, hf, hp] at h
    exact ⟨qty, fee, price, rfl, rfl, rfl, h.symm⟩

/-! ## C1 -/

/-- C1: a fill update whose fill id is already recorded in the order's
`fill_id_set` is a no-op: `update_with_fill_update` returns `False` and
leaves the executed totals, fee and fill-id set exactly as they were; and
when the same fill message is delivered twice, the second delivery
changes nothing, so the executed totals grow exactly once. -/
theorem c1_duplicate_fill_is_noop (o : IdexInFlightOrder) (u : FillUpdate) :
    (pick u.i u.fillId ∈ o.fill_id_set →
      update_with_fill_update o u = some (false, o)) ∧
    (∀ o', update_with_fill_update o u = some (true, o') →
      update_with_fill_update o' u = some (false, o') ∧
      ∃ qty, pick u.q u.quantity = some qty ∧
        o'.executed_amount_base = o.executed_amount_base + qty) := by
  constructor
  · exact update_with_fill_update_dup o u
  · intro o' h
    obtain ⟨-, qty, fee, price, hq, -, -, ho'⟩ := update_with_fill_update_true_elim o o' u h
    constructor
    · apply update_with_fill_update_dup
      rw [ho']
      exact Finset.mem_insert_self _ _
    · exact ⟨qty, hq, by rw [ho']⟩

/-- The spec's running example of a fill: id "f1", price 10, quantity 2,
fee 0.01. -/
def c1Fill : FillUpdate :=
  { i := some "f1", fillId := none, q := some 2, quantity := none,
    p := some 10, price := none, f := some (1 / 100), fee := none,
    a := some "USD", feeAsset := none }

/-- A freshly tracked buy order of quantity 5 at price 10. -/
def c1Order0 : IdexInFlightOrder :=
  IdexInFlightOrder.new "B1" "E1" "MATIC-USD" OrderType.LIMIT TradeType.BUY 10 5

/-- `c1Order0` after fill "f1" was applied once. -/
def c1Order1 : IdexInFlightOrder :=
  { c1Order0 with
    fill_id_set := {some "f1"}
    executed_amount_base := 2
    fee_paid := 1 / 100
    executed_amount_quote := 20
    fee_asset := some "USD" }

theorem c1_duplicate_fill_is_noop_witness :
    update_with_fill_update c1Order0 c1Fill = some (true, c1Order1) ∧
    update_with_fill_update c1Order1 c1Fill = some (false, c1Order1) ∧
    c1Order1.executed_amount_base = 2 := by
  have hA : update_with_fill_update c1Order0 c1Fill = some (true, c1Order1) := by
    norm_num [update_with_fill_update, pick, strFalsy, c1Order0, c1Fill, c1Order1,
      IdexInFlightOrder.new]
  exact ⟨hA, ((c1_duplicate_fill_is_noop c1Order0 c1Fill).2 c1Order1 hA).1, rfl⟩

/-! ## C2 -/

/-- A tracked buy order of quantity 10 that has already applied fill
"f1" (2 base units at price 10). -/
def c2Order : IdexInFlightOrder :=
  { IdexInFlightOrder.new "C2" "E2" "MATIC-USD" OrderType.LIMIT TradeType.BUY 10 10 with
    fill_id_set := {some "f1"}
    executed_amount_base := 2
    executed_amount_quote := 20
    fee_paid := 1 / 100
    fee_asset := some "USD" }

/-- Store tracking only `c2Order`. -/
def c2St : ExchangeState := { in_flight_orders := [("C2", c2Order)] }

/-- REST-spelled duplicate of fill "f1". -/
def c2DupFill : FillUpdate :=
  { i := none, fillId := some "f1", q := none, quantity := some 2,
    p := none, price := some 10, f := none, fee := some (1 / 100),
    a := none, feeAsset := some "USD" }

/-- REST-spelled fresh fill "f2" (3 base units at price 10). -/
def c2FreshFill : FillUpdate :=
  { i := none, fillId := some "f2", q := none, quantity := some 3,
    p := none, price := some 10, f := none, fee := some (1 / 100),
    a := none, feeAsset := some "USD" }

/-- A REST order message for "C2" carrying the duplicate entry first and
the fresh entry second. -/
def c2Msg : UpdateMsg :=
  { c := none, clientOrderId := some "C2", F := none,
    fills := some [c2DupFill, c2FreshFill], i := none, orderId := some "E2" }

/-- C2 counterexample: in a message whose fill list is
`[duplicate "f1", fresh "f2"]`, the fresh entry that follows the
duplicate is NOT applied - `_process_fill_message` returns early with the
store unchanged and no `OrderFilled` event - even though "f2" alone would
have been applied (second conjunct).  This falsifies the claim that every
non-duplicate entry of a message is applied. -/
theorem c2_counterexample :
    process_fill_message c2St c2Msg = some (c2St, [], some c2Order) ∧
    (update_with_fill_update c2Order c2FreshFill).map Prod.fst = some true := by
  constructor
  · simp [process_fill_message, msgClientId, pick, getOrder, runFillLoop, msgHasFills,
      msgFills, msgTradeId, applyFills, update_with_fill_update, setOrder,
      c2St, c2Msg, c2DupFill, c2Order, IdexInFlightOrder.new]
  · rfl

/-- C2 amended: `_process_fill_message` walks the fill entries in order;
a fresh entry is applied (with its `OrderFilled` event) and processing
continues, but the first entry whose fill id is already in the applied
set stops processing of the whole message: the duplicate and every entry
after it are not applied, no further events fire, and the completion
check is skipped (the store keeps the partially updated order). -/
theorem c2_duplicate_stops_message (etid : Option String) (o : IdexInFlightOrder)
    (u : FillUpdate) (rest : List FillUpdate) :
    (pick u.i u.fillId ∈ o.fill_id_set →
      applyFills etid o (u :: rest) = some (o, [], true)) ∧
    (∀ o' price qty fee, update_with_fill_update o u = some (true, o') →
      pick u.p u.price = some price → pick u.q u.quantity = some qty →
      pick u.f u.fee = some fee →
      applyFills etid o (u :: rest) =
        (applyFills etid o' rest).map (fun r =>
          (r.1,
           MarketEv.OrderFilled o'.client_order_id o'.trading_pair o'.trade_type
             o'.order_type price qty (pick u.a u.feeAsset) fee etid :: r.2.1,
           r.2.2))) ∧
    (∀ st msg cid o1, msgClientId msg = some cid →
      getOrder st (some cid) = some o1 →
      ∀ o2 evs2, runFillLoop msg o1 = some (o2, evs2, true) →
        process_fill_message st msg = some (setOrder st cid o2, evs2, some o2)) := by
  refine ⟨?_, ?_, ?_⟩
  · intro h
    rw [applyFills, update_with_fill_update_dup o u h]
  · intro o' price qty fee h hp hq hf
    rcases hr : applyFills etid o' rest with _ | ⟨o2, evs, early⟩ <;>
      simp [applyFills, h, hp, hq, hf, hr]
  · intro st msg cid o1 hcid ho o2 evs2 hrun
    simp [process_fill_message, hcid, ho, hrun]

/-- C2 witness for the amended theorem: a concrete duplicate head entry
halts the loop with the fresh tail entry unapplied. -/
theorem c2_duplicate_stops_message_witness :
    applyFills (some "E2") c2Order [c2DupFill, c2FreshFill] = some (c2Order, [], true) := by
  apply (c2_duplicate_stops_message (some "E2") c2Order c2DupFill [c2FreshFill]).1
  decide

/-! ## C3 -/

theorem find_filter_ne_none (l : List (String × IdexInFlightOrder)) (c : String) :
    (l.filter (fun p => p.1 != c)).find? (fun p => p.1 == c) = none := by
  induction l with
  | nil => rfl
  | cons p t ih =>
    by_cases h : p.1 = c <;> simp [List.filter_cons, h, ih, List.find?_cons]

theorem getOrder_removeOrder_self (st : ExchangeState) (c : String) :
    getOrder (removeOrder st c) (some c) = none := by
  simp [getOrder, removeOrder, find_filter_ne_none]

theorem find_set_some (l : List (String × IdexInFlightOrder)) (c : String)
    (o' : IdexInFlightOrder) (h : (l.find? (fun p => p.1 == c)).isSome) :
    (l.map (fun p => if p.1 == c then (c, o') else p)).find? (fun p => p.1 == c) =
      some (c, o') := by
  induction l with
  | nil => simp at h
  | cons p t ih =>
    by_cases hp : p.1 = c
    · simp [List.find?_cons, hp]
    · have h' : (t.find? (fun p => p.1 == c)).isSome := by
        simpa [List.find?_cons, hp] using h
      simpa [List.find?_cons, hp] using ih h'

theorem getOrder_setOrder (st : ExchangeState) (c : String) (o o' : IdexInFlightOrder)
    (h : getOrder st (some c) = some o) :
    getOrder (setOrder st c o') (some c) = some o' := by
  have hs : ((st.in_flight_orders).find? (fun p => p.1 == c)).isSome := by
    simp only [getOrder] at h
    rcases hf : (st.in_flight_orders).find? (fun p => p.1 == c) with _ | v
    · rw [hf] at h
      simp at h
    · simp [hf]
  show ((setOrder st c o').in_flight_orders.find? (fun p => p.1 == c)).map (fun p => p.2) =
    some o'
  show (((st.in_flight_orders).map (fun p => if p.1 == c then (c, o') else p)).find?
    (fun p => p.1 == c)).map (fun p => p.2) = some o'
  rw [find_set_some st.in_flight_orders c o' hs]
  rfl

theorem fill_complete_iff (o : IdexInFlightOrder) :
    fill_complete o = true ↔
      (|o.executed_amount_base - o.amount| ≤
          NORMALIZED_PRECISION * max |o.executed_amount_base| |o.amount| ∨
        o.executed_amount_base ≥ o.amount) := by
  simp [fill_complete, isclose, Bool.or_eq_true, decide_eq_true_eq, ge_iff_le]

/-- C3: when `_process_fill_message` runs the fill loop to completion
(no duplicate early-return), the tracked order transitions to the
terminal state "filled" - with the completed event emitted and the record
removed from tracking - if and only if its executed base quantity equals
the requested amount within `NORMALIZED_PRECISION = 1e-8` relative
tolerance (`math.isclose`) or meets/exceeds it. -/
theorem c3_completion_threshold (st : ExchangeState) (msg : UpdateMsg) (cid : String)
    (o o1 : IdexInFlightOrder) (evs : List MarketEv)
    (hcid : msgClientId msg = some cid)
    (ho : getOrder st (some cid) = some o)
    (hrun : runFillLoop msg o = some (o1, evs, false)) :
    (∃ stF evsF oF, process_fill_message st msg = some (stF, evsF, some oF) ∧
        oF.last_state = "filled" ∧ getOrder stF (some cid) = none ∧
        completedEvent oF ∈ evsF) ↔
      (|o1.executed_amount_base - o1.amount| ≤
          NORMALIZED_PRECISION * max |o1.executed_amount_base| |o1.amount| ∨
        o1.executed_amount_base ≥ o1.amount) := by
  by_cases hfc : fill_complete o1 = true
  · have hproc : process_fill_message st msg =
        some (removeOrder (setOrder st cid { o1 with last_state := "filled" }) cid,
              evs ++ [completedEvent { o1 with last_state := "filled" }],
              some { o1 with last_state := "filled" }) := by
      simp [process_fill_message, hcid, ho, hrun, hfc]
    constructor
    · intro _
      exact (fill_complete_iff o1).mp hfc
    · intro _
      exact ⟨_, _, _, hproc, rfl, getOrder_removeOrder_self _ _, by simp⟩
  · have hproc : process_fill_message st msg = some (setOrder st cid o1, evs, some o1) := by
      simp [process_fill_message, hcid, ho, hrun, hfc]
    constructor
    · rintro ⟨stF, evsF, oF, hproc', hfilled, hnone, hmem⟩
      rw [hproc] at hproc'
      simp only [Option.some.injEq, Prod.mk.injEq] at hproc'
      obtain ⟨hst, -, hoF⟩ := hproc'
      rw [← hst] at hnone
      rw [getOrder_setOrder st cid o o1 ho] at hnone
      simp at hnone
    · intro hrhs
      exact absurd ((fill_complete_iff o1).mpr hrhs) hfc

/-- A tracked sell order of requested quantity 5 whose executed base
quantity is 4.99999995 (the spec's completion-threshold example). -/
def c3Order : IdexInFlightOrder :=
  { IdexInFlightOrder.new "W3" "E3" "MATIC-USD" OrderType.LIMIT TradeType.SELL 10 5 with
    executed_amount_base := 99999999 / 20000000
    executed_amount_quote := 999999990 / 20000000
    fee_paid := 1 / 100
    fee_asset := some "USD" }

/-- Store tracking only `c3Order`. -/
def c3St : ExchangeState := { in_flight_orders := [("W3", c3Order)] }

/-- An order message for "W3" carrying no fills at all, so the loop
trivially completes and only the completion check acts. -/
def c3Msg : UpdateMsg :=
  { c := some "W3", clientOrderId := none, F := none, fills := none,
    i := none, orderId := none }

theorem c3_completion_threshold_witness :
    ∃ stF evsF oF, process_fill_message c3St c3Msg = some (stF, evsF, some oF) ∧
      oF.last_state = "filled" ∧ getOrder stF (some "W3") = none ∧
      completedEvent oF ∈ evsF := by
  apply (c3_completion_threshold c3St c3Msg "W3" c3Order c3Order [] rfl rfl rfl).mpr
  left
  have h1 : c3Order.executed_amount_base = 99999999 / 20000000 := rfl
  have h2 : c3Order.amount = 5 := rfl
  rw [h1, h2]
  have h3 : (99999999 / 20000000 : ℚ) - 5 = -(1 / 20000000) := by norm_num
  rw [h3, abs_neg, abs_of_nonneg (by norm_num : (0:ℚ) ≤ 1 / 20000000),
    abs_of_nonneg (by norm_num : (0:ℚ) ≤ 99999999 / 20000000),
    abs_of_nonneg (by norm_num : (0:ℚ) ≤ 5),
    max_eq_right (by norm_num : (99999999 / 20000000 : ℚ) ≤ 5)]
  norm_num [NORMALIZED_PRECISION]

/-! ## C4 -/

/-- A tracked order whose venue-assigned exchange order id is "E1". -/
def c4Order : IdexInFlightOrder :=
  IdexInFlightOrder.new "C4" "E1" "MATIC-USD" OrderType.LIMIT TradeType.BUY 10 5

/-- Store tracking only `c4Order`. -/
def c4St : ExchangeState := { in_flight_orders := [("C4", c4Order)] }

/-- C4 counterexample: the venue's cancel response reports order id "E2"
while the tracked order has exchange id "E1"; because the mismatch
`IOError` message ends in "order not found", `_execute_cancel` handles it
as a success: the record IS removed from tracking, `OrderCancelled` IS
emitted and the client order id is returned instead of the error
propagating.  This falsifies every part of the claim except the
completion signal staying unset. -/
theorem c4_counterexample :
    execute_cancel c4St "MATIC-USD" "C4" (DeleteOutcome.resp [some "E2"]) =
      ({ in_flight_orders := [] }, [MarketEv.OrderCancelled "C4" "E1"],
       CancelOutcome.success "C4", some false) := by
  decide

/-- C4 amended: a cancel response whose first order id differs from the
tracked exchange order id is handled exactly like cancel-not-found - the
record is removed, `OrderCancelled` fires, the client id is returned as
success, and only the completion signal stays unset (`cancelled_event`
is `.set()` solely on an exact match); an `IOError` whose message does
not contain "order not found" does propagate with no state change. -/
theorem c4_mismatch_is_treated_as_success :
    (∀ st tp cid o first rest, getOrder st (some cid) = some o →
      ¬ first = some o.exchange_order_id →
      execute_cancel st tp cid (DeleteOutcome.resp (first :: rest)) =
        (removeOrder st cid, [MarketEv.OrderCancelled cid o.exchange_order_id],
         CancelOutcome.success cid, some o.cancelled_event_set)) ∧
    (∀ st tp cid o, getOrder st (some cid) = some o →
      execute_cancel st tp cid (DeleteOutcome.ioerror false) =
        (st, [], CancelOutcome.ioerror false, some o.cancelled_event_set)) := by
  constructor
  · intro st tp cid o first rest ho hne
    simp [execute_cancel, ho, hne]
  · intro st tp cid o ho
    simp [execute_cancel, ho]

theorem c4_mismatch_is_treated_as_success_witness :
    execute_cancel c4St "MATIC-USD" "C4" (DeleteOutcome.resp [some "E2", some "E9"]) =
      (removeOrder c4St "C4", [MarketEv.OrderCancelled "C4" c4Order.exchange_order_id],
       CancelOutcome.success "C4", some c4Order.cancelled_event_set) :=
  c4_mismatch_is_treated_as_success.1 c4St "MATIC-USD" "C4" c4Order (some "E2") [some "E9"]
    rfl (by decide)

/-! ## C5 -/

/-- C5: for a tracked order, a venue cancel that comes back "not found"
(an empty response list, or an `IOError` whose message contains "order
not found") is treated as a successful cancellation - the record is
removed from tracking, `OrderCancelled` is emitted and the client order
id is returned - while cancelling a client id that is not tracked at all
raises an order-not-found `IOError` that propagates with no state
change. -/
theorem c5_cancel_not_found_is_success :
    (∀ st tp cid o, getOrder st (some cid) = some o →
      execute_cancel st tp cid (DeleteOutcome.resp []) =
        (removeOrder st cid, [MarketEv.OrderCancelled cid o.exchange_order_id],
         CancelOutcome.success cid, some o.cancelled_event_set) ∧
      execute_cancel st tp cid (DeleteOutcome.ioerror true) =
        (removeOrder st cid, [MarketEv.OrderCancelled cid o.exchange_order_id],
         CancelOutcome.success cid, some o.cancelled_event_set)) ∧
    (∀ st tp cid out, getOrder st (some cid) = none →
      execute_cancel st tp cid out = (st, [], CancelOutcome.ioerror true, none)) := by
  constructor
  · intro st tp cid o ho
    exact ⟨by simp [execute_cancel, ho], by simp [execute_cancel, ho]⟩
  · intro st tp cid out ho
    simp [execute_cancel, ho]

/-- A tracked order for the C5 witness. -/
def c5Order : IdexInFlightOrder :=
  IdexInFlightOrder.new "C5" "E5" "MATIC-USD" OrderType.LIMIT_MAKER TradeType.SELL 7 3

/-- Store tracking only `c5Order`. -/
def c5St : ExchangeState := { in_flight_orders := [("C5", c5Order)] }

theorem c5_cancel_not_found_is_success_witness :
    execute_cancel c5St "MATIC-USD" "C5" (DeleteOutcome.resp []) =
      (removeOrder c5St "C5", [MarketEv.OrderCancelled "C5" c5Order.exchange_order_id],
       CancelOutcome.success "C5", some c5Order.cancelled_event_set) ∧
    execute_cancel c5St "MATIC-USD" "missing" (DeleteOutcome.resp []) =
      (c5St, [], CancelOutcome.ioerror true, none) :=
  ⟨(c5_cancel_not_found_is_success.1 c5St "MATIC-USD" "C5" c5Order rfl).1,
   c5_cancel_not_found_is_success.2 c5St "MATIC-USD" "missing" (DeleteOutcome.resp []) rfl⟩

/-! ## C6 -/

/-- How many of the first `k` delete outcomes are responses (counted as
successful cancellations by `cancel_all`); the rest - exceptions, or
results past the deadline cutoff - are the failed ones. -/
def succCount : List DeleteOutcome → ℕ → ℕ
  | _, 0 => 0
  | [], _ + 1 => 0
  | DeleteOutcome.ioerror _ :: rest, k + 1 => succCount rest k
  | DeleteOutcome.resp _ :: rest, k + 1 => succCount rest k + 1

/-- The client ids the `cancel_all` loop processes successfully. -/
def succIdsOf : List ((String × IdexInFlightOrder) × DeleteOutcome) → ℕ → List String
  | _, 0 => []
  | [], _ + 1 => []
  | (_, DeleteOutcome.ioerror _) :: rest, k + 1 => succIdsOf rest k
  | ((cid, _), DeleteOutcome.resp _) :: rest, k + 1 => cid :: succIdsOf rest k

theorem cancelAllLoop_ids :
    ∀ (pairs : List ((String × IdexInFlightOrder) × DeleteOutcome)) (k : ℕ)
      (st : ExchangeState), (cancelAllLoop st pairs k).2.2 = succIdsOf pairs k := by
  intro pairs
  induction pairs with
  | nil => intro k st; cases k <;> simp [cancelAllLoop, succIdsOf]
  | cons pr rest ih =>
    intro k st
    cases k with
    | zero => simp [cancelAllLoop, succIdsOf]
    | succ k =>
      rcases pr with ⟨⟨cid, o⟩, _ | _⟩ <;> simp [cancelAllLoop, succIdsOf, ih]

theorem cancelAllLoop_state :
    ∀ (pairs : List ((String × IdexInFlightOrder) × DeleteOutcome)) (k : ℕ)
      (st : ExchangeState),
      (cancelAllLoop st pairs k).1 = (succIdsOf pairs k).foldl removeOrder st := by
  intro pairs
  induction pairs with
  | nil => intro k st; cases k <;> simp [cancelAllLoop, succIdsOf]
  | cons pr rest ih =>
    intro k st
    cases k with
    | zero => simp [cancelAllLoop, succIdsOf]
    | succ k =>
      rcases pr with ⟨⟨cid, o⟩, _ | _⟩ <;> simp [cancelAllLoop, succIdsOf, ih]

theorem succIdsOf_zip_length :
    ∀ (l : List (String × IdexInFlightOrder)) (outs : List DeleteOutcome) (k : ℕ),
      l.length = outs.length →
      (succIdsOf (l.zip outs) k).length = succCount outs k := by
  intro l
  induction l with
  | nil =>
    intro outs k h
    cases outs with
    | nil => cases k <;> rfl
    | cons o outs' => simp at h
  | cons p t ih =>
    intro outs k h
    cases outs with
    | nil => simp at h
    | cons o outs' =>
      cases k with
      | zero => simp [succIdsOf, succCount]
      | succ k =>
        have h' : t.length = outs'.length := by simpa using h
        have hz : List.zipWith Prod.mk t outs' = t.zip outs' := rfl
        rcases o with _ | _ <;>
          · simp only [List.zip_cons_cons, succIdsOf, succCount, List.length_cons]
            rw [hz, ih outs' k h']

theorem succIdsOf_sublist :
    ∀ (l : List (String × IdexInFlightOrder)) (outs : List DeleteOutcome) (k : ℕ),
      (succIdsOf (l.zip outs) k).Sublist (l.map (fun p => p.1)) := by
  intro l
  induction l with
  | nil => intro outs k; cases outs <;> cases k <;> simp [succIdsOf]
  | cons p t ih =>
    intro outs k
    cases outs with
    | nil => cases k <;> simp [succIdsOf]
    | cons o outs' =>
      cases k with
      | zero => simp [succIdsOf]
      | succ k =>
        rcases p with ⟨cid, ord⟩
        rcases o with _ | _
        · simpa [List.zip_cons_cons, succIdsOf] using (ih outs' k).cons₂ cid
        · exact (ih outs' k).cons cid

theorem find_filter_ne (l : List (String × IdexInFlightOrder)) (c d : String) (h : d ≠ c) :
    (l.filter (fun p => p.1 != c)).find? (fun p => p.1 == d) =
      l.find? (fun p => p.1 == d) := by
  have hcd : c ≠ d := fun he => h he.symm
  induction l with
  | nil => rfl
  | cons p t ih =>
    by_cases hp : p.1 = c
    · simp [List.filter_cons, hp, List.find?_cons, hcd, ih]
    · by_cases hpd : p.1 = d <;>
        simp [List.filter_cons, hp, List.find?_cons, hpd, h, hcd, ih]

theorem getOrder_removeOrder_ne (st : ExchangeState) (c d : String) (h : d ≠ c) :
    getOrder (removeOrder st c) (some d) = getOrder st (some d) := by
  simp [getOrder, removeOrder, find_filter_ne st.in_flight_orders c d h]

theorem getOrder_foldl_remove :
    ∀ (ids : List String) (st : ExchangeState) (c : String),
      getOrder (ids.foldl removeOrder st) (some c) =
        if c ∈ ids then none else getOrder st (some c) := by
  intro ids
  induction ids with
  | nil => intro st c; simp
  | cons a t ih =>
    intro st c
    simp only [List.foldl_cons]
    rw [ih]
    by_cases hc : c ∈ t
    · simp [hc]
    · by_cases hca : c = a
      · subst hca
        simp [hc, getOrder_removeOrder_self]
      · simp [hc, hca, getOrder_removeOrder_ne st a c hca]

theorem filter_mem_of_sublist :
    ∀ {s l : List String}, s.Sublist l → l.Nodup →
      l.filter (fun c => decide (c ∈ s)) = s := by
  intro s l h
  induction h with
  | slnil => intro _; rfl
  | @cons l₁ l₂ a h ih =>
    intro hnd
    obtain ⟨ha, hnd'⟩ := List.nodup_cons.mp hnd
    have ha' : a ∉ l₁ := fun hm => ha (h.subset hm)
    simp [List.filter_cons, ha', ih hnd']
  | @cons₂ l₁ l₂ a h ih =>
    intro hnd
    obtain ⟨ha, hnd'⟩ := List.nodup_cons.mp hnd
    have tail : ∀ c ∈ l₂, (decide (c ∈ a :: l₁)) = (decide (c ∈ l₁)) := by
      intro c hc
      have hca : c ≠ a := fun he => ha (he ▸ hc)
      simp [hca]
    have hcond : decide (a ∈ a :: l₁) = true := by simp
    rw [List.filter_cons, hcond, if_pos rfl, List.filter_congr tail, ih hnd']

theorem length_filter_not_mem (ids s : List String) :
    ((ids.filter (fun c => !(decide (c ∈ s)))).length) =
      ids.length - (ids.filter (fun c => decide (c ∈ s))).length := by
  induction ids with
  | nil => rfl
  | cons a t ih =>
    have hle : (t.filter (fun c => decide (c ∈ s))).length ≤ t.length :=
      List.length_filter_le _ _
    by_cases h : a ∈ s
    · simp [List.filter_cons, h, ih]
    · simp [List.filter_cons, h, ih]
      omega

/-- A tracked open order used to exhibit the failed-cancel behaviour of
`cancel_all`. -/
def c6Order : IdexInFlightOrder :=
  IdexInFlightOrder.new "C6" "E6" "MATIC-USD" OrderType.LIMIT TradeType.BUY 10 5

/-- Store tracking only `c6Order`. -/
def c6St : ExchangeState := { in_flight_orders := [("C6", c6Order)] }

/-- C6 counterexample: with one tracked order whose cancel call raises,
`cancel_all` reports the single failed `CancellationResult` but leaves
the order in `_in_flight_orders` - falsifying "all N orders are removed
from tracking by the time it returns". -/
theorem c6_counterexample :
    cancel_all c6St [DeleteOutcome.ioerror false] 1 = (c6St, [], [("C6", false)]) ∧
    getOrder c6St (some "C6") = some c6Order := by
  constructor
  · decide
  · rfl

/-- C6 amended: for N non-terminal tracked orders (distinct client ids,
one delete outcome each) of which the loop processes `cutoff` before the
deadline, `cancel_all` returns exactly N `CancellationResult` entries -
the responses processed in time (counted by `succCount`) marked
successful and the other N - M marked failed - but only the successful
ones are removed from tracking: every failed order remains tracked,
unchanged. -/
theorem c6_failed_cancels_stay_tracked (st : ExchangeState) (outcomes : List DeleteOutcome)
    (cutoff : ℕ)
    (hlen : (st.in_flight_orders.filter (fun p => !p.2.is_done)).length = outcomes.length)
    (hnodup : (st.in_flight_orders.map (fun p => p.1)).Nodup) :
    ((cancel_all st outcomes cutoff).2.2).length =
        (st.in_flight_orders.filter (fun p => !p.2.is_done)).length ∧
    (((cancel_all st outcomes cutoff).2.2).filter (fun e => e.2 == true)).length =
        succCount outcomes cutoff ∧
    (((cancel_all st outcomes cutoff).2.2).filter (fun e => e.2 == false)).length =
        (st.in_flight_orders.filter (fun p => !p.2.is_done)).length -
          succCount outcomes cutoff ∧
    (∀ cid, (cid, true) ∈ (cancel_all st outcomes cutoff).2.2 →
        getOrder (cancel_all st outcomes cutoff).1 (some cid) = none) ∧
    (∀ cid, (cid, false) ∈ (cancel_all st outcomes cutoff).2.2 →
        getOrder (cancel_all st outcomes cutoff).1 (some cid) = getOrder st (some cid) ∧
        (getOrder st (some cid)).isSome = true) := by
  have hcont : ∀ (s : List String) (c : String), s.contains c = decide (c ∈ s) := by
    intro s c
    simp
  have hres : (cancel_all st outcomes cutoff).2.2 =
      (succIdsOf ((st.in_flight_orders.filter (fun p => !p.2.is_done)).zip outcomes)
          cutoff).map (fun c => (c, true)) ++
      (((st.in_flight_orders.filter (fun p => !p.2.is_done)).map (fun p => p.1)).filter
          (fun c => !(decide (c ∈ succIdsOf
            ((st.in_flight_orders.filter (fun p => !p.2.is_done)).zip outcomes)
            cutoff)))).map (fun c => (c, false)) := by
    simp only [cancel_all, cancelAllLoop_ids]
    congr 1
    apply congrArg
    apply List.filter_congr
    intro c _
    rw [hcont]
  have hstate : (cancel_all st outcomes cutoff).1 =
      (succIdsOf ((st.in_flight_orders.filter (fun p => !p.2.is_done)).zip outcomes)
          cutoff).foldl removeOrder st := by
    simp only [cancel_all, cancelAllLoop_state]
  have hsub : (succIdsOf ((st.in_flight_orders.filter (fun p => !p.2.is_done)).zip outcomes)
      cutoff).Sublist
      ((st.in_flight_orders.filter (fun p => !p.2.is_done)).map (fun p => p.1)) :=
    succIdsOf_sublist _ outcomes cutoff
  have hnodup_ids :
      ((st.in_flight_orders.filter (fun p => !p.2.is_done)).map (fun p => p.1)).Nodup := by
    have hsl : ((st.in_flight_orders.filter (fun p => !p.2.is_done)).map
        (fun p => p.1)).Sublist (st.in_flight_orders.map (fun p => p.1)) :=
      (List.filter_sublist _).map _
    exact hnodup.sublist hsl
  have hslen : (succIdsOf ((st.in_flight_orders.filter (fun p => !p.2.is_done)).zip outcomes)
      cutoff).length = succCount outcomes cutoff :=
    succIdsOf_zip_length _ outcomes cutoff hlen
  have hfiltmem :
      (((st.in_flight_orders.filter (fun p => !p.2.is_done)).map (fun p => p.1)).filter
        (fun c => decide (c ∈ succIdsOf
          ((st.in_flight_orders.filter (fun p => !p.2.is_done)).zip outcomes) cutoff))) =
      succIdsOf ((st.in_flight_orders.filter (fun p => !p.2.is_done)).zip outcomes) cutoff :=
    filter_mem_of_sublist hsub hnodup_ids
  have hfaillen :
      ((((st.in_flight_orders.filter (fun p => !p.2.is_done)).map (fun p => p.1)).filter
        (fun c => !(decide (c ∈ succIdsOf
          ((st.in_flight_orders.filter (fun p => !p.2.is_done)).zip outcomes)
          cutoff)))).length) =
      (st.in_flight_orders.filter (fun p => !p.2.is_done)).length -
        succCount outcomes cutoff := by
    rw [length_filter_not_mem, hfiltmem, hslen, List.length_map]
  have hmemtrue : ∀ cid, (cid, true) ∈ (cancel_all st outcomes cutoff).2.2 →
      cid ∈ succIdsOf ((st.in_flight_orders.filter (fun p => !p.2.is_done)).zip outcomes)
        cutoff := by
    intro cid hmem
    rw [hres] at hmem
    rcases List.mem_append.mp hmem with hl | hr
    · obtain ⟨c, hc, hce⟩ := List.mem_map.mp hl
      obtain ⟨rfl, -⟩ := Prod.mk.injEq .. ▸ hce
      exact hc
    · obtain ⟨c, -, hce⟩ := List.mem_map.mp hr
      exact absurd (congrArg Prod.snd hce) (by simp)
  have hmemfalse : ∀ cid, (cid, false) ∈ (cancel_all st outcomes cutoff).2.2 →
      cid ∈ ((st.in_flight_orders.filter (fun p => !p.2.is_done)).map (fun p => p.1)) ∧
      cid ∉ succIdsOf ((st.in_flight_orders.filter (fun p => !p.2.is_done)).zip outcomes)
        cutoff := by
    intro cid hmem
    rw [hres] at hmem
    rcases List.mem_append.mp hmem with hl | hr
    · obtain ⟨c, -, hce⟩ := List.mem_map.mp hl
      exact absurd (congrArg Prod.snd hce) (by simp)
    · obtain ⟨c, hc, hce⟩ := List.mem_map.mp hr
      obtain ⟨rfl, -⟩ := Prod.mk.injEq .. ▸ hce
      have := List.mem_filter.mp hc
      refine ⟨this.1, ?_⟩
      have hb := this.2
      simp only [Bool.not_eq_true'] at hb
      simpa using hb
  have hsome : ∀ cid,
      cid ∈ ((st.in_flight_orders.filter (fun p => !p.2.is_done)).map (fun p => p.1)) →
      (getOrder st (some cid)).isSome = true := by
    intro cid hc
    obtain ⟨p, hp, hpe⟩ := List.mem_map.mp hc
    have hpo : p ∈ st.in_flight_orders := (List.mem_filter.mp hp).1
    simp only [getOrder]
    rcases hf : st.in_flight_orders.find? (fun q => q.1 == cid) with _ | v
    · have := List.find?_eq_none.mp hf p hpo
      simp [hpe] at this
    · rw [hf]
      rfl
  have lenA : ∀ (l : List String),
      ((l.map (fun c => (c, true))).filter (fun e => e.2 == true)).length = l.length := by
    intro l
    induction l with
    | nil => rfl
    | cons a t ih => simpa using ih
  have lenB : ∀ (l : List String),
      ((l.map (fun c => (c, false))).filter (fun e => e.2 == true)).length = 0 := by
    intro l
    induction l with
    | nil => rfl
    | cons a t ih => simp [ih]
  have lenC : ∀ (l : List String),
      ((l.map (fun c => (c, true))).filter (fun e => e.2 == false)).length = 0 := by
    intro l
    induction l with
    | nil => rfl
    | cons a t ih => simp [ih]
  have lenD : ∀ (l : List String),
      ((l.map (fun c => (c, false))).filter (fun e => e.2 == false)).length = l.length := by
    intro l
    induction l with
    | nil => rfl
    | cons a t ih => simpa using ih
  refine ⟨?_, ?_, ?_, ?_, ?_⟩
  · rw [hres]
    simp only [List.length_append, List.length_map]
    rw [hslen, hfaillen]
    have hle : succCount outcomes cutoff ≤
        (st.in_flight_orders.filter (fun p => !p.2.is_done)).length := by
      rw [← hslen]
      have := hsub.length_le
      simpa using this
    omega
  · rw [hres, List.filter_append, List.length_append, lenA, lenB, hslen, Nat.add_zero]
  · rw [hres, List.filter_append, List.length_append, lenC, lenD, hfaillen, Nat.zero_add]
  · intro cid hmem
    rw [hstate, getOrder_foldl_remove]
    simp [hmemtrue cid hmem]
  · intro cid hmem
    obtain ⟨hin, hnotin⟩ := hmemfalse cid hmem
    constructor
    · rw [hstate, getOrder_foldl_remove]
      simp [hnotin]
    · exact hsome cid hin

theorem c6_failed_cancels_stay_tracked_witness :
    ((cancel_all c6St [DeleteOutcome.ioerror false] 1).2.2).length =
      (c6St.in_flight_orders.filter (fun p => !p.2.is_done)).length ∧
    getOrder (cancel_all c6St [DeleteOutcome.ioerror false] 1).1 (some "C6") =
      getOrder c6St (some "C6") := by
  have h := c6_failed_cancels_stay_tracked c6St [DeleteOutcome.ioerror false] 1
    (by decide) (by decide)
  exact ⟨h.1, (h.2.2.2.2 "C6" (by decide)).1⟩

/-! ## C7 -/

/-- Fill "f1" as it would be re-delivered after a restart. -/
def c7Fill : FillUpdate :=
  { i := some "f1", fillId := none, q := some 2, quantity := none,
    p := some 10, price := none, f := some (1 / 100), fee := none,
    a := some "USD", feeAsset := none }

/-- An order that already applied fill "f1" (2 base units at price 10)
before being serialized. -/
def c7Applied : IdexInFlightOrder :=
  { IdexInFlightOrder.new "C7" "E7" "MATIC-USD" OrderType.LIMIT TradeType.BUY 10 5 with
    fill_id_set := {some "f1"}
    executed_amount_base := 2
    executed_amount_quote := 20
    fee_paid := 1 / 100
    fee_asset := some "USD" }

/-- C7 (code bug): `from_json` never restores `fill_id_set` - the
reconstructed record's applied-fill set is empty for every snapshot - so
after the `to_json`/`from_json` round trip (as run by
`restore_tracking_states`) the fill "f1" that was already counted is no
longer recognized as a duplicate: re-delivering it returns `True` and
raises the executed base quantity from 2 to 4, double-counting the fill,
although the same delivery on the pre-snapshot record is correctly
refused. -/
theorem c7_rehydration_loses_fill_dedup :
    (from_json (to_json c7Applied)).fill_id_set = ∅ ∧
    getOrder (restore_tracking_states { in_flight_orders := [] }
        [("C7", to_json c7Applied)]) (some "C7") = some (from_json (to_json c7Applied)) ∧
    update_with_fill_update c7Applied c7Fill = some (false, c7Applied) ∧
    ((update_with_fill_update (from_json (to_json c7Applied)) c7Fill).map
      (fun r => (r.1, r.2.executed_amount_base))) = some (true, 4) := by
  refine ⟨rfl, rfl, ?_, ?_⟩
  · exact update_with_fill_update_dup _ _ (by decide)
  · norm_num [update_with_fill_update, pick, strFalsy, from_json, to_json, c7Applied,
      c7Fill, IdexInFlightOrder.new]

/-! ## C8 -/

/-- The `IdexAuth` state obtained when no wallet private key is
configured. -/
def c8Auth : IdexAuth :=
  { api_key := "key", secret_key := "secret", wallet_private_key := "", wallet := none }

/-- An order-intent signature parameter tuple. -/
def c8Params : List (String × SigValue) :=
  [("uint128", SigValue.u128 1), ("address", SigValue.addr "0x0")]

/-- C8 counterexample: constructing `IdexAuth` without a private key
leaves `_wallet = None`, and `wallet_sign` then fails with an
`AttributeError` on `None.sign_message` - not with the `SigningError`
the claim names (no such class exists in the code). -/
theorem c8_counterexample :
    IdexAuth.new "key" "secret" none = Except.ok c8Auth ∧
    wallet_sign c8Auth c8Params = Except.error (PyErr.attributeError noneTypeSignMsg) ∧
    isSigningError (wallet_sign c8Auth c8Params) = false := by
  exact ⟨rfl, rfl, rfl⟩

/-- C8 amended: signing any parameter tuple with no wallet configured
does fail - no signature is produced - but with an `AttributeError`
raised by accessing `sign_message` on the unset (`None`) wallet, not
with a `SigningError`. -/
theorem c8_no_wallet_sign_fails (a : IdexAuth) (ps : List (String × SigValue))
    (h : a.wallet = none) :
    wallet_sign a ps = Except.error (PyErr.attributeError noneTypeSignMsg) ∧
    isSigningError (wallet_sign a ps) = false := by
  simp [wallet_sign, h, isSigningError]

theorem c8_no_wallet_sign_fails_witness :
    wallet_sign c8Auth c8Params = Except.error (PyErr.attributeError noneTypeSignMsg) ∧
    isSigningError (wallet_sign c8Auth c8Params) = false :=
  c8_no_wallet_sign_fails c8Auth c8Params rfl

/-! ## C9 -/

/-- C9 counterexample: the integer form of successive uuid1 nonces is not
monotonically increasing - when the 100ns timestamp crosses a multiple of
`2^32` (about every 429.5 seconds), the `time_low` field wraps and the
later nonce compares SMALLER than the earlier one, because RFC 4122 puts
the low timestamp bits in the most significant position. -/
theorem c9_counterexample :
    uuid1_int 4294967296 0 0 < uuid1_int 4294967295 0 0 := by
  decide

/-- C9 amended: every issued nonce is unique - the uuid1 integer is
injective in the 60-bit timestamp (CPython's `uuid1` makes in-process
timestamps strictly increasing, so no two calls share one) regardless of
clock sequence and node - but the integer sequence is NOT monotonically
increasing across `time_low` wraps. -/
theorem c9_nonce_unique (t1 t2 c1 c2 n1 n2 : ℕ)
    (h1 : t1 < 2 ^ 60) (h2 : t2 < 2 ^ 60) (hne : t1 ≠ t2) :
    uuid1_int t1 c1 n1 ≠ uuid1_int t2 c2 n2 := by
  intro h
  have e1 : ∀ t c n : ℕ, uuid1_int t c n =
      (t % 2 ^ 32 * 2 ^ 32 + t / 2 ^ 32 % 2 ^ 16 * 2 ^ 16 + t / 2 ^ 48 % 2 ^ 12 + 2 ^ 12) *
          2 ^ 64 +
        ((c / 2 ^ 8 % 2 ^ 6 + 2 ^ 7) * 2 ^ 56 + c % 2 ^ 8 * 2 ^ 48 + n % 2 ^ 48) := by
    intro t c n
    simp only [uuid1_int]
    ring
  rw [e1, e1] at h
  have hb1 : c1 / 2 ^ 8 % 2 ^ 6 < 2 ^ 6 := Nat.mod_lt _ (by norm_num)
  have hb2 : c1 % 2 ^ 8 < 2 ^ 8 := Nat.mod_lt _ (by norm_num)
  have hb3 : n1 % 2 ^ 48 < 2 ^ 48 := Nat.mod_lt _ (by norm_num)
  have hb4 : c2 / 2 ^ 8 % 2 ^ 6 < 2 ^ 6 := Nat.mod_lt _ (by norm_num)
  have hb5 : c2 % 2 ^ 8 < 2 ^ 8 := Nat.mod_lt _ (by norm_num)
  have hb6 : n2 % 2 ^ 48 < 2 ^ 48 := Nat.mod_lt _ (by norm_num)
  obtain ⟨L1, hL1, hL1eq⟩ : ∃ L, L < 2 ^ 64 ∧
      (c1 / 2 ^ 8 % 2 ^ 6 + 2 ^ 7) * 2 ^ 56 + c1 % 2 ^ 8 * 2 ^ 48 + n1 % 2 ^ 48 = L :=
    ⟨_, by omega, rfl⟩
  obtain ⟨L2, hL2, hL2eq⟩ : ∃ L, L < 2 ^ 64 ∧
      (c2 / 2 ^ 8 % 2 ^ 6 + 2 ^ 7) * 2 ^ 56 + c2 % 2 ^ 8 * 2 ^ 48 + n2 % 2 ^ 48 = L :=
    ⟨_, by omega, rfl⟩
  rw [hL1eq, hL2eq] at h
  have hdiv : ∀ (A L : ℕ), L < 2 ^ 64 → ((A + 2 ^ 12) * 2 ^ 64 + L) / 2 ^ 64 = A + 2 ^ 12 := by
    intro A L hL
    rw [mul_comm, Nat.mul_add_div (by norm_num), Nat.div_eq_of_lt hL, Nat.add_zero]
  have hH : t1 % 2 ^ 32 * 2 ^ 32 + t1 / 2 ^ 32 % 2 ^ 16 * 2 ^ 16 + t1 / 2 ^ 48 % 2 ^ 12 =
      t2 % 2 ^ 32 * 2 ^ 32 + t2 / 2 ^ 32 % 2 ^ 16 * 2 ^ 16 + t2 / 2 ^ 48 % 2 ^ 12 := by
    have hq : ((t1 % 2 ^ 32 * 2 ^ 32 + t1 / 2 ^ 32 % 2 ^ 16 * 2 ^ 16 +
          t1 / 2 ^ 48 % 2 ^ 12 + 2 ^ 12) * 2 ^ 64 + L1) / 2 ^ 64 =
        ((t2 % 2 ^ 32 * 2 ^ 32 + t2 / 2 ^ 32 % 2 ^ 16 * 2 ^ 16 +
          t2 / 2 ^ 48 % 2 ^ 12 + 2 ^ 12) * 2 ^ 64 + L2) / 2 ^ 64 := by
      rw [h]
    rw [hdiv _ _ hL1, hdiv _ _ hL2] at hq
    omega
  have hcomp : t1 % 2 ^ 32 = t2 % 2 ^ 32 ∧
      t1 / 2 ^ 32 % 2 ^ 16 = t2 / 2 ^ 32 % 2 ^ 16 ∧
      t1 / 2 ^ 48 % 2 ^ 12 = t2 / 2 ^ 48 % 2 ^ 12 := by
    have b1 : t1 % 2 ^ 32 < 2 ^ 32 := Nat.mod_lt _ (by norm_num)
    have b2 : t2 % 2 ^ 32 < 2 ^ 32 := Nat.mod_lt _ (by norm_num)
    have b3 : t1 / 2 ^ 32 % 2 ^ 16 < 2 ^ 16 := Nat.mod_lt _ (by norm_num)
    have b4 : t2 / 2 ^ 32 % 2 ^ 16 < 2 ^ 16 := Nat.mod_lt _ (by norm_num)
    have b5 : t1 / 2 ^ 48 % 2 ^ 12 < 2 ^ 12 := Nat.mod_lt _ (by norm_num)
    have b6 : t2 / 2 ^ 48 % 2 ^ 12 < 2 ^ 12 := Nat.mod_lt _ (by norm_num)
    revert hH b1 b2 b3 b4 b5 b6
    generalize t1 % 2 ^ 32 = X1
    generalize t2 % 2 ^ 32 = X2
    generalize t1 / 2 ^ 32 % 2 ^ 16 = Y1
    generalize t2 / 2 ^ 32 % 2 ^ 16 = Y2
    generalize t1 / 2 ^ 48 % 2 ^ 12 = Z1
    generalize t2 / 2 ^ 48 % 2 ^ 12 = Z2
    intro hH b1 b2 b3 b4 b5 b6
    omega
  obtain ⟨hc1, hc2, hc3⟩ := hcomp
  exact hne (by omega)

theorem c9_nonce_unique_witness :
    uuid1_int 4294967295 3 5 ≠ uuid1_int 4294967296 3 5 :=
  c9_nonce_unique 4294967295 4294967296 3 3 5 5 (by norm_num) (by norm_num) (by norm_num)

/-! ## C10 -/

/-- C10 counterexample: the configuration does give the public pool 5
requests per 1-second interval and the user pool 10 per 1-second
interval, but that makes the public quota the LOWER one (5 < 10),
contradicting the claim that the public pool has the higher quota. -/
theorem c10_counterexample :
    (findRateLimit HTTP_PUBLIC_ENDPOINTS_LIMIT_ID).map (fun r => r.limit) = some 5 ∧
    (findRateLimit HTTP_USER_ENDPOINTS_LIMIT_ID).map (fun r => r.limit) = some 10 ∧
    (5 : ℕ) < 10 := by
  exact ⟨rfl, rfl, by norm_num⟩

/-- C10 amended: the gateway has exactly the two named pools of
`RATE_LIMITS` - public at 5 requests per 1-second interval and user at
10 per 1-second interval - with the authenticated user pool holding the
higher quota and the public pool the lower one. -/
theorem c10_rate_limit_pools :
    RATE_LIMITS =
      [ { limit_id := "PublicAccessHTTP", limit := 5, time_interval := 1 },
        { limit_id := "UserAccessHTTP", limit := 10, time_interval := 1 } ] ∧
    findRateLimit HTTP_PUBLIC_ENDPOINTS_LIMIT_ID =
      some { limit_id := "PublicAccessHTTP", limit := 5, time_interval := 1 } ∧
    findRateLimit HTTP_USER_ENDPOINTS_LIMIT_ID =
      some { limit_id := "UserAccessHTTP", limit := 10, time_interval := 1 } ∧
    (5 : ℕ) < 10 := by
  exact ⟨rfl, rfl, rfl, by norm_num⟩

end IdexSpec
